import Mathlib

/-!
Verification of the subdomain-scanner core (check-subdomain repository).

This file is a shallow embedding, in Lean 4, of the pipeline implemented in
`src/lib/cloudflare.ts`, `src/lib/crtsh.ts`, `src/lib/dns-resolver.ts` and
`src/app/api/scan/route.ts`, together with theorems settling the specified
properties of that pipeline.

Modelling conventions:
- JavaScript strings are modelled as Lean `String`s; all character-level
  processing is done structurally on `String.data` (`List Char`) so that
  every definition evaluates inside the kernel.  The hostnames and IP
  address literals handled by this pipeline are ASCII, for which JavaScript
  string semantics (UTF-16 code-unit order, `toLowerCase`, `trim`,
  `split` on a one-character separator) agree with the structural
  functions defined here.
- JavaScript 32-bit operators (`<<`, `&`, `~`) are modelled exactly, as
  operations on `Int` that normalise through the 32-bit pattern
  (`% 2^32`, with the signed reading for results), mirroring ECMAScript
  ToInt32/ToUint32.
- Network effects (the crt.sh HTTP exchange and the per-candidate DNS
  lookups) enter as explicit parameters: a `CtResponse` value and a
  `DnsOracle` function.  A lookup failure of any kind (NXDOMAIN, server
  failure, the 3-second per-candidate timeout, an empty address list) is
  an oracle result of `none`, exactly the outcomes the code maps to a
  `null` field.
- `Array.prototype.sort` (TimSort) is a stable sort; for a consistent
  comparator its output is the unique stable order, so it is modelled by
  `List.insertionSort` (also stable) over the comparator's `≤ 0` relation.
- The event loop's `Promise.all` over a batch is modelled by mapping the
  per-candidate resolution over the batch; sequential awaiting of batches
  is modelled by the sequential recursion over the chunk list.
-/

/-! ## ECMAScript 32-bit integer operations -/

/-- ECMAScript ToUint32: the value's 32-bit pattern read as an unsigned
integer, i.e. the representative of `x` modulo `2^32` in `[0, 2^32)`. -/
def toUint32 (x : Int) : Nat := (x % (4294967296 : Int)).toNat

/-- ECMAScript ToInt32: the value's 32-bit pattern read as a signed
integer in `[-2^31, 2^31)`. -/
def toInt32 (x : Int) : Int :=
  if toUint32 x < 2147483648 then (toUint32 x : Int) else (toUint32 x : Int) - 4294967296

/-- JavaScript `a << b`: left shift of the 32-bit pattern by `b mod 32`,
read back as a signed 32-bit integer. -/
def jsShl (a b : Int) : Int := toInt32 ((toUint32 a : Int) * 2 ^ (toUint32 b % 32))

/-- JavaScript `a & b`: bitwise and of the 32-bit patterns, read back as a
signed 32-bit integer. -/
def jsAnd (a b : Int) : Int := toInt32 (Nat.land (toUint32 a) (toUint32 b))

/-- JavaScript `~a`: bitwise complement of the 32-bit pattern, read back
as a signed 32-bit integer. -/
def jsNot (a : Int) : Int := toInt32 ((4294967295 : Int) - (toUint32 a : Int))

/-! ## Structural character-list utilities (JavaScript string semantics on ASCII) -/

/-- JavaScript `s.split(sep)` for a one-character separator: splits into the
(possibly empty) fields between occurrences of `sep`; the empty string
yields one empty field, just as in JavaScript. -/
def splitOnC (sep : Char) : List Char → List (List Char)
  | [] => [[]]
  | c :: cs =>
    let rest := splitOnC sep cs
    if c = sep then [] :: rest
    else
      match rest with
      | [] => [[c]]
      | r :: rs => (c :: r) :: rs

/-- JavaScript `s.toLowerCase()` restricted to ASCII, character by character. -/
def lowerChars (l : List Char) : List Char := l.map Char.toLower

/-- Decimal-digit string to number: the fragment of JavaScript `Number(s)` /
`parseInt(s, 10)` exercised by the code, which only ever parses non-empty
all-digit octet and prefix-length strings. -/
def digitsToNat? (l : List Char) : Option Nat :=
  match l with
  | [] => none
  | _ =>
    if l.all Char.isDigit then
      some (l.foldl (fun acc c => acc * 10 + (c.toNat - 48)) 0)
    else none

/-- JavaScript whitespace test for `trim`, restricted to the ASCII
whitespace that can occur in crt.sh `name_value` fields. -/
def isWsChar (c : Char) : Bool := c = ' ' || c = '\t' || c = '\n' || c = '\r'

/-- JavaScript `s.trim()` on ASCII: strip leading and trailing whitespace. -/
def trimChars (l : List Char) : List Char :=
  ((l.dropWhile isWsChar).reverse.dropWhile isWsChar).reverse

/-- Strict UTF-16 code-unit order of JavaScript strings, on ASCII equal to
codepoint-lexicographic order of the character lists.  This is the order of
the default `Array.prototype.sort()` comparator. -/
def charsLt : List Char → List Char → Bool
  | _, [] => false
  | [], _ :: _ => true
  | a :: as, b :: bs => a < b || (a = b && charsLt as bs)

/-! ## cloudflare.ts -/

/-- Cloudflare IPv4 ranges (from https://www.cloudflare.com/ips-v4). -/
def CLOUDFLARE_IPV4_RANGES : List String :=
  [ "103.21.244.0/22",
    "103.22.200.0/22",
    "103.31.4.0/22",
    "104.16.0.0/13",
    "104.24.0.0/14",
    "108.162.192.0/18",
    "131.0.72.0/22",
    "141.101.64.0/18",
    "162.158.0.0/15",
    "172.64.0.0/13",
    "173.245.48.0/20",
    "188.114.96.0/20",
    "190.93.240.0/20",
    "197.234.240.0/22",
    "198.41.128.0/17" ]

/-- Cloudflare IPv6 ranges (from https://www.cloudflare.com/ips-v6). -/
def CLOUDFLARE_IPV6_RANGES : List String :=
  [ "2400:cb00::/32",
    "2606:4700::/32",
    "2803:f800::/32",
    "2405:b500::/32",
    "2405:8100::/32",
    "2a06:98c0::/29",
    "2c0f:f248::/32" ]

/-- The four dotted-quad fields of an IPv4 string, as parsed by
`ip.split('.').map(Number)`.  `none` covers the strings on which that
parse does not yield four numeric parts (the classifier is only ever
applied to resolver-produced dotted quads). -/
def ipParts (ip : String) : Option (Nat × Nat × Nat × Nat) :=
  match (splitOnC '.' ip.data).map digitsToNat? with
  | [some a, some b, some c, some d] => some (a, b, c, d)
  | _ => none

/-- `ipToNumber` from cloudflare.ts:
`(parts[0] << 24) + (parts[1] << 16) + (parts[2] << 8) + parts[3]`, with
the JavaScript signed 32-bit shifts.  Defined on the dotted-quad domain
(see `ipParts`). -/
def ipToNumber (ip : String) : Option Int :=
  (ipParts ip).map fun p =>
    jsShl (p.1 : Int) 24 + jsShl (p.2.1 : Int) 16 + jsShl (p.2.2.1 : Int) 8 + (p.2.2.2 : Int)

/-- `isIpInCidr` from cloudflare.ts: mask from the prefix length, then
`(ipNum & mask) === (rangeNum & mask)`.  The fallthrough `false` branches
cover inputs outside the parsed domain, where the JavaScript `NaN`/ToInt32
arithmetic compares the 32-bit pattern `0` against the (nonzero) masked
network of every published block and likewise yields `false`. -/
def isIpInCidr (ip cidr : String) : Bool :=
  match splitOnC '/' cidr.data with
  | [rangeChars, prefixChars] =>
    match digitsToNat? prefixChars, ipToNumber ip, ipToNumber (String.mk rangeChars) with
    | some plen, some ipNum, some rangeNum =>
      let mask := jsNot (jsShl 1 ((32 : Int) - (plen : Int)) - 1)
      jsAnd ipNum mask == jsAnd rangeNum mask
    | _, _, _ => false
  | _ => false

/-- `isCloudflare` from cloudflare.ts.  `none` models JavaScript `null`;
the `""` test models the falsiness test `if (!ip)`, which also catches the
empty string.  IPv6 addresses (any string containing a colon) are checked
by the code's textual shortcut: `startsWith` on the first two colon-groups
of each range's base address. -/
def isCloudflare (ip : Option String) : Bool :=
  match ip with
  | none => false
  | some s =>
    if s = "" then false
    else if s.data.contains ':' then
      CLOUDFLARE_IPV6_RANGES.any fun range =>
        let base := (splitOnC '/' range.data).headD []
        (List.intercalate [':'] ((splitOnC ':' base).take 2)).isPrefixOf s.data
    else
      CLOUDFLARE_IPV4_RANGES.any fun range => isIpInCidr s range

/-! ## crtsh.ts -/

/-- One record of the crt.sh JSON response; only `name_value` is read. -/
structure CrtShEntry where
  name_value : String
  common_name : String
deriving DecidableEq

/-- The outcome of the single crt.sh HTTPS exchange, as the code can
observe it: a thrown transport failure / 30-second timeout / malformed
body (anything that makes the `try` block throw, including a JSON body
not shaped like an entry array), a non-OK HTTP status, or a parsed entry
array. -/
inductive CtResponse where
  | failure
  | httpError (status : Nat)
  | success (entries : List CrtShEntry)

/-- `isValidSubdomain` from crtsh.ts: the anchored pattern
`[a-z0-9]([a-z0-9-]*[a-z0-9])?(\.[a-z0-9]([a-z0-9-]*[a-z0-9])?)*`,
i.e. one or more dot-separated labels, each of lowercase alphanumerics
and inner hyphens. -/
def labelMatches (good : Char → Bool) (l : List Char) : Bool :=
  match l with
  | [] => false
  | c :: cs =>
    good c && cs.all (fun x => good x || x = '-') &&
      (match (c :: cs).getLast? with
       | some x => good x
       | none => false)

def isLowerAlnum (c : Char) : Bool := (c.isLower || c.isDigit)

def isValidSubdomain (subdomain : String) : Bool :=
  (splitOnC '.' subdomain.data).all (labelMatches isLowerAlnum)

/-- The per-name processing and filter applied to each name occurring in a
`name_value` field: trim, lower-case, then keep it when it is non-empty
(JavaScript truthiness), not a wildcard, ends with the lower-cased queried
domain, and is a syntactically valid subdomain. -/
def cleanName (nm : List Char) : List Char :=
  lowerChars (trimChars nm)

def keepName (domain : String) (cleaned : List Char) : Bool :=
  !cleaned.isEmpty &&
  !(cleaned.headD ' ' = '*') &&
  (lowerChars domain.data).isSuffixOf cleaned &&
  isValidSubdomain (String.mk cleaned)

/-- Insertion-ordered deduplication: the element order a JavaScript `Set`
iterates in, given the insertion sequence (first occurrences, in order). -/
def setDedup : List String → List String
  | [] => []
  | x :: xs => x :: (setDedup xs).filter (fun y => y ≠ x)

/-- The default (comparator-less) `Array.prototype.sort()` on an array of
ASCII strings: lexicographic UTF-16 code-unit order.  TimSort is stable
and this order is total, so the result is the unique sorted stable
permutation, modelled by insertion sort. -/
def jsSortStrings (l : List String) : List String :=
  l.insertionSort fun a b => !charsLt b.data a.data

/-- `fetchSubdomainsFromCrtSh` from crtsh.ts.  Every failure path of the
`try` block (transport failure, timeout, JSON parse failure, an entry
shape that makes the iteration throw) is the `failure` case and returns
`[]`; a non-OK status returns `[]`; otherwise each `name_value` field is
split on newlines, each name cleaned and filtered, and the collected set
returned sorted. -/
def fetchSubdomainsFromCrtSh (response : CtResponse) (domain : String) : List String :=
  match response with
  | .failure => []
  | .httpError _ => []
  | .success entries =>
    let names := (entries.map fun e => splitOnC '\n' e.name_value.data).flatten
    let kept := (names.map cleanName).filter (keepName domain)
    jsSortStrings (setDedup (kept.map String.mk))

/-- `COMMON_SUBDOMAINS` from crtsh.ts. -/
def COMMON_SUBDOMAINS : List String :=
  [ "www", "api", "dev", "staging", "test", "admin", "app", "mail",
    "cdn", "static", "assets", "img", "images", "media", "video",
    "blog", "shop", "store", "docs", "help", "support", "status",
    "m", "mobile", "beta", "alpha", "demo", "sandbox",
    "eu", "us", "ap", "asia", "uk", "de", "fr",
    "db", "database", "sql", "mysql", "postgres", "redis", "mongo",
    "ftp", "sftp", "ssh", "vpn", "proxy", "gateway",
    "auth", "login", "sso", "oauth", "id", "accounts",
    "ws", "websocket", "socket", "realtime", "live", "stream",
    "internal", "intranet", "corp", "office", "portal" ]

/-- `generateWordlistSubdomains` from crtsh.ts. -/
def generateWordlistSubdomains (domain : String) : List String :=
  COMMON_SUBDOMAINS.map fun pfx => pfx ++ "." ++ domain

/-! ## dns-resolver.ts -/

/-- `DnsResult` from dns-resolver.ts. -/
structure DnsResult where
  subdomain : String
  ip : Option String
  ipv6 : Option String
deriving DecidableEq

/-- The environment's DNS behaviour during one scan: for each queried
hostname, the first `A` address (or `none` for NXDOMAIN, a server
failure, an empty answer, or the per-candidate timeout) and likewise the
first `AAAA` address. -/
def DnsOracle := String → Option String × Option String

/-- `resolveSingle` from dns-resolver.ts: one record per candidate, with a
`null` per address family exactly when that family's lookup yielded no
address; the 3-second timeout race resolves to the all-null record, which
the oracle expresses as `(none, none)`. -/
def resolveSingle (o : DnsOracle) (subdomain : String) : DnsResult :=
  { subdomain := subdomain, ip := (o subdomain).1, ipv6 := (o subdomain).2 }

/-- The successive slices `subdomains.slice(i, i + concurrency)` taken by
the resolver loop, for chunk size `k + 1`: `cur` is the (reversed) chunk
being filled and `rem` how many elements it still accepts. -/
def chunksGo (k : Nat) (rem : Nat) (cur : List String) : List String → List (List String)
  | [] => [cur.reverse]
  | x :: xs =>
    match rem with
    | 0 => cur.reverse :: chunksGo k k [x] xs
    | r + 1 => chunksGo k r (x :: cur) xs

/-- The batch decomposition of the candidate list into consecutive chunks
of size `k + 1` (the last chunk possibly shorter). -/
def chunks (k : Nat) (l : List String) : List (List String) :=
  match l with
  | [] => []
  | x :: xs => chunksGo k k [x] xs

/-- `resolveSubdomains` from dns-resolver.ts: the candidate list is cut
into consecutive batches of `concurrency` candidates; each batch's
lookups run under one `Promise.all`, awaited before the next batch
starts, and the batch results are appended in order.  With a
non-positive concurrency the loop index never advances past a non-empty
array, so the promise never settles; that divergence is modelled as
`none` (`concurrency : Nat`, with `0` standing for every non-positive
limit). -/
def resolveSubdomains (o : DnsOracle) (subdomains : List String) (concurrency : Nat) :
    Option (List DnsResult) :=
  match concurrency with
  | 0 => if subdomains.isEmpty then some [] else none
  | k + 1 =>
    some (((chunks k subdomains).map fun chunk => chunk.map (resolveSingle o)).flatten)

/-! ## route.ts (POST /api/scan) -/

/-- `ScanResult` from route.ts. -/
structure ScanResult where
  subdomain : String
  ip : Option String
  cloudflare : Bool
deriving DecidableEq

/-- The `stats` object of a `ScanResponse`. -/
structure ScanStats where
  total : Nat
  cloudflare : Nat
  no_ip : Nat
deriving DecidableEq

/-- `ScanResponse` from route.ts. -/
structure ScanResponse where
  scan_date : String
  domain : String
  stats : ScanStats
  subdomains : List ScanResult
deriving DecidableEq

/-- JavaScript truthiness of a nullable string: `null` and `""` are falsy. -/
def jsTruthy (s : Option String) : Bool :=
  match s with
  | none => false
  | some v => !(v = "")

def isAlnumChar (c : Char) : Bool := c.isAlpha || c.isDigit

/-- The route's domain validation pattern
`^[a-zA-Z0-9]([a-zA-Z0-9-]*[a-zA-Z0-9])?(\.[a-zA-Z0-9]([a-zA-Z0-9-]*[a-zA-Z0-9])?)*\.[a-zA-Z]{2,}$`:
since `.` occurs in no character class, the string matches exactly when
its dot-separated fields are: one or more leading labels each matching
`[a-zA-Z0-9]([a-zA-Z0-9-]*[a-zA-Z0-9])?`, and a final field of two or
more letters. -/
def validDomain (s : String) : Bool :=
  let labels := splitOnC '.' s.data
  decide (2 ≤ labels.length) &&
  labels.dropLast.all (labelMatches isAlnumChar) &&
  (match labels.getLast? with
   | some t => decide (2 ≤ t.length) && t.all Char.isAlpha
   | none => false)

/-- Steps 1-3 of the POST handler: CT-derived names, wordlist names, then
`[...new Set([...ctSubdomains, ...wordlistSubdomains])].sort()`. -/
def mergedCandidates (ct : CtResponse) (domain : String) : List String :=
  jsSortStrings
    (setDedup (fetchSubdomainsFromCrtSh ct domain ++ generateWordlistSubdomains domain))

/-- The comparator literal of `results.sort` in route.ts, as the modelled
root-locale `localeCompare` on ASCII hostname strings: on the charset
`[a-zA-Z0-9.-]` the ICU root collator's primary weights are ordered as
the lower-cased code points, and its case (tertiary) level orders
lowercase before uppercase, so `a.localeCompare(b)` is negative, zero or
positive as the key (lower-cased characters, case pattern) of `a`
compares to that of `b`. -/
def caseChars (l : List Char) : List Char :=
  l.map fun c => if c.isUpper then 'B' else 'A'

def hostCollate (x y : String) : Int :=
  if charsLt (lowerChars x.data) (lowerChars y.data) then -1
  else if charsLt (lowerChars y.data) (lowerChars x.data) then 1
  else if charsLt (caseChars x.data) (caseChars y.data) then -1
  else if charsLt (caseChars y.data) (caseChars x.data) then 1
  else 0

def resultCmp (a b : ScanResult) : Int :=
  if jsTruthy a.ip && !jsTruthy b.ip then -1
  else if !jsTruthy a.ip && jsTruthy b.ip then 1
  else hostCollate a.subdomain b.subdomain

/-- `results.sort(comparator)`: TimSort is stable, and the comparator's
`≤ 0` relation is a total preorder, so the result is the unique sorted
stable permutation, modelled by insertion sort. -/
def jsSortResults (l : List ScanResult) : List ScanResult :=
  l.insertionSort fun a b => resultCmp a b ≤ 0

/-- The POST handler of route.ts, over the modelled collaborators: the
parsed request body's `domain` string, the crt.sh exchange outcome, the
DNS behaviour, and the formatted current timestamp.  The error cases are
the 400 responses produced before any network I/O; after validation the
handler always builds a complete report. -/
def POST (domain : String) (ct : CtResponse) (dns : DnsOracle) (now : String) :
    Except (Nat × String) ScanResponse :=
  if domain = "" then .error (400, "Domain is required")
  else if !validDomain domain then .error (400, "Invalid domain format")
  else
    let allSubdomains := mergedCandidates ct domain
    let dnsResults := (resolveSubdomains dns allSubdomains 50).getD []
    let results : List ScanResult := dnsResults.map fun r =>
      { subdomain := r.subdomain, ip := r.ip, cloudflare := isCloudflare r.ip }
    let sorted := jsSortResults results
    let stats : ScanStats :=
      { total := sorted.length,
        cloudflare := (sorted.filter fun r => r.cloudflare).length,
        no_ip := (sorted.filter fun r => !jsTruthy r.ip).length }
    .ok { scan_date := now, domain := domain, stats := stats, subdomains := sorted }

/-! ## Specification-side definitions

These definitions render the specification's wording (not the code's), for
the claims that compare the implementation against it: exact CIDR
membership for IPv4, true 128-bit prefix comparison for IPv6, and the
claimed domain grammar. -/

/-- The 32-bit unsigned value of a dotted quad. -/
def ipv4Nat (a b c d : Nat) : Nat := ((a * 256 + b) * 256 + c) * 256 + d

/-- The 32-bit mask with the leading `p` bits set, `1 ≤ p ≤ 32`. -/
def v4mask (p : Nat) : Nat := 4294967296 - 2 ^ (32 - p)

/-- The 15 published Cloudflare IPv4 blocks of `CLOUDFLARE_IPV4_RANGES`,
as (network value, prefix length) pairs. -/
def cloudflareV4Blocks : List (Nat × Nat) :=
  [ (ipv4Nat 103 21 244 0, 22),
    (ipv4Nat 103 22 200 0, 22),
    (ipv4Nat 103 31 4 0, 22),
    (ipv4Nat 104 16 0 0, 13),
    (ipv4Nat 104 24 0 0, 14),
    (ipv4Nat 108 162 192 0, 18),
    (ipv4Nat 131 0 72 0, 22),
    (ipv4Nat 141 101 64 0, 18),
    (ipv4Nat 162 158 0 0, 15),
    (ipv4Nat 172 64 0 0, 13),
    (ipv4Nat 173 245 48 0, 20),
    (ipv4Nat 188 114 96 0, 20),
    (ipv4Nat 190 93 240 0, 20),
    (ipv4Nat 197 234 240 0, 22),
    (ipv4Nat 198 41 128 0, 17) ]

/-- The specification's IPv4 membership predicate: exact 32-bit integer
arithmetic, `(address & mask) == (network & mask)` against each published
block's mask. -/
def cloudflareV4Mem (n : Nat) : Bool :=
  cloudflareV4Blocks.any fun bp => Nat.land n (v4mask bp.2) == Nat.land bp.1 (v4mask bp.2)

/-- Value of an ASCII hex digit. -/
def hexDigitVal? (c : Char) : Option Nat :=
  if c.isDigit then some (c.toNat - 48)
  else if 'a' ≤ c && c ≤ 'f' then some (c.toNat - 87)
  else if 'A' ≤ c && c ≤ 'F' then some (c.toNat - 55)
  else none

/-- One 16-bit colon-group of an IPv6 address (1 to 4 hex digits). -/
def hexGroup? (l : List Char) : Option Nat :=
  match l with
  | [] => none
  | _ =>
    if l.length ≤ 4 then
      l.foldl
        (fun acc c =>
          match acc, hexDigitVal? c with
          | some a, some v => some (a * 16 + v)
          | _, _ => none)
        (some 0)
    else none

/-- The part before and after the first `::`, when the address contains
one. -/
def splitDoubleColon : List Char → Option (List Char × List Char)
  | [] => none
  | [_] => none
  | a :: b :: rest =>
    if a = ':' && b = ':' then some ([], rest)
    else (splitDoubleColon (b :: rest)).map fun p => (a :: p.1, p.2)

/-- The colon-groups of one side of an IPv6 address (empty side: no
groups). -/
def v6Groups? (l : List Char) : Option (List Nat) :=
  match l with
  | [] => some []
  | _ => (splitOnC ':' l).mapM hexGroup?

/-- The full 128-bit value of an IPv6 address string, handling one `::`
zero-compression; `none` for strings that are not valid IPv6 addresses.
This is the specification's reading of an address for true prefix-bit
comparison (the code itself never parses IPv6). -/
def parseIPv6 (s : String) : Option Nat :=
  let assemble := fun (gs : List Nat) => gs.foldl (fun acc g => acc * 65536 + g) 0
  match splitDoubleColon s.data with
  | some lr =>
    match v6Groups? lr.1, v6Groups? lr.2 with
    | some gl, some gr =>
      if gl.length + gr.length ≤ 7 then
        some (assemble (gl ++ List.replicate (8 - gl.length - gr.length) 0 ++ gr))
      else none
    | _, _ => none
  | none =>
    match v6Groups? s.data with
    | some gs => if gs.length = 8 then some (assemble gs) else none
    | _ => none

/-- The specification's IPv6 membership predicate: true prefix-bit
comparison of the full 128-bit address against each published block's
declared prefix length. -/
def v6SpecMember (s : String) : Bool :=
  CLOUDFLARE_IPV6_RANGES.any fun range =>
    match splitOnC '/' range.data with
    | [baseChars, plenChars] =>
      match parseIPv6 (String.mk baseChars), digitsToNat? plenChars, parseIPv6 s with
      | some net, some plen, some addr => (addr >>> (128 - plen)) == (net >>> (128 - plen))
      | _, _, _ => false
    | _ => false

/-- The claimed domain grammar, exactly as the claim words it: one or more
dot-separated labels over `[a-zA-Z0-9-]`, no label beginning or ending
with a hyphen, final label of length at least 2. -/
def claimDomainGrammar (s : String) : Bool :=
  let labels := splitOnC '.' s.data
  labels.all (labelMatches isAlnumChar) &&
  (match labels.getLast? with
   | some t => decide (2 ≤ t.length)
   | none => false)

/-- A label of the claimed grammar, in propositional form: non-empty,
over `[a-zA-Z0-9-]`, neither starting nor ending with a hyphen. -/
def grammarLabel (l : List Char) : Prop :=
  l ≠ [] ∧ (∀ c ∈ l, isAlnumChar c = true ∨ c = '-') ∧
  l.head? ≠ some '-' ∧ l.getLast? ≠ some '-'

/-! ## Concrete collaborators used by witnesses -/

/-- The DNS behaviour in which every lookup fails (all families `null`). -/
def oNone : DnsOracle := fun _ => (none, none)

/-- A complete pipeline run on the valid domain `a.bc` with a failed CT
exchange and all-failing DNS. -/
def respA : ScanResponse :=
  ((POST "a.bc" .failure oNone "t").toOption).getD ⟨"", "", ⟨0, 0, 0⟩, []⟩

/-! ## Utility lemmas -/

theorem chunksGo_flatten (k : Nat) :
    ∀ (l : List String) (rem : Nat) (cur : List String),
      (chunksGo k rem cur l).flatten = cur.reverse ++ l := by
  intro l
  induction l with
  | nil => intro rem cur; simp [chunksGo]
  | cons x xs ih =>
    intro rem cur
    cases rem with
    | zero => simp [chunksGo, ih]
    | succ r => simp [chunksGo, ih]

theorem chunks_flatten (k : Nat) (l : List String) : (chunks k l).flatten = l := by
  cases l with
  | nil => rfl
  | cons x xs => simp [chunks, chunksGo_flatten]

theorem chunksGo_length_le (k : Nat) :
    ∀ (l : List String) (rem : Nat) (cur : List String),
      cur.length + rem ≤ k + 1 → ∀ b ∈ chunksGo k rem cur l, b.length ≤ k + 1 := by
  intro l
  induction l with
  | nil =>
    intro rem cur h b hb
    simp [chunksGo] at hb
    subst hb
    simp
    omega
  | cons x xs ih =>
    intro rem cur h b hb
    cases rem with
    | zero =>
      simp [chunksGo] at hb
      rcases hb with hb | hb
      · subst hb; simp; omega
      · exact ih k [x] (by simp; omega) b hb
    | succ r =>
      exact ih r (x :: cur) (by simp at h ⊢; omega) b hb

theorem chunks_length_le (k : Nat) (l : List String) :
    ∀ b ∈ chunks k l, b.length ≤ k + 1 := by
  cases l with
  | nil => intro b hb; simp [chunks] at hb
  | cons x xs => exact chunksGo_length_le k xs k [x] (by simp; omega)

theorem resolveSubdomains_eq_map (o : DnsOracle) (subs : List String) (k : Nat) :
    resolveSubdomains o subs (k + 1) = some (subs.map (resolveSingle o)) := by
  simp only [resolveSubdomains]
  rw [← List.map_flatten, chunks_flatten]

/-! ## C1: resolver total correspondence -/

/-- C1: for every candidate array and every concurrency limit `C ≥ 1`,
`resolveSubdomains` terminates and returns exactly one `ResolutionRecord`
per candidate, in the input's order and of the input's length, with a
failed or timed-out lookup recorded as a `null` address field (the
oracle's `none`); a non-positive concurrency limit (modelled by `0`) is
the only input on which the loop fails to settle. -/
theorem resolveSubdomains_total_correspondence :
    (∀ (o : DnsOracle) (subs : List String) (k : Nat),
      resolveSubdomains o subs (k + 1) =
        some (subs.map fun s => { subdomain := s, ip := (o s).1, ipv6 := (o s).2 })) ∧
    (∀ (o : DnsOracle) (subs : List String) (k : Nat) (rs : List DnsResult),
      resolveSubdomains o subs (k + 1) = some rs →
        rs.length = subs.length ∧
        ∀ (i : Nat) (hi : i < subs.length),
          rs[i]? = some { subdomain := subs[i], ip := (o subs[i]).1, ipv6 := (o subs[i]).2 }) ∧
    (∀ (o : DnsOracle) (subs : List String), subs ≠ [] → resolveSubdomains o subs 0 = none) := by
  refine ⟨?_, ?_, ?_⟩
  · intro o subs k
    exact resolveSubdomains_eq_map o subs k
  · intro o subs k rs h
    rw [resolveSubdomains_eq_map o subs k] at h
    injection h with h
    subst h
    refine ⟨by simp, ?_⟩
    intro i hi
    rw [List.getElem?_map, List.getElem?_eq_getElem hi]
    simp [resolveSingle]
  · intro o subs h
    simp [resolveSubdomains, h]

/-! ## C9: resolver batch structure -/

/-- C9: the resolver partitions the candidates into consecutive batches of
size at most `C` (`= k + 1`), concatenated in order to cover the input
exactly; the lookups of one batch run under a single join that is awaited
before the next batch starts, so at most `C` lookups are in flight at any
time, and the returned records are exactly one per candidate in input
order. -/
theorem resolveSubdomains_batches_capped (o : DnsOracle) (subs : List String) (k : Nat) :
    (∀ b ∈ chunks k subs, b.length ≤ k + 1) ∧
    (chunks k subs).flatten = subs ∧
    resolveSubdomains o subs (k + 1) =
      some (((chunks k subs).map fun batch => batch.map (resolveSingle o)).flatten) ∧
    ∃ rs, resolveSubdomains o subs (k + 1) = some rs ∧ rs.length = subs.length ∧
      ∀ (i : Nat) (hi : i < subs.length), rs[i]? = some (resolveSingle o subs[i]) := by
  refine ⟨chunks_length_le k subs, chunks_flatten k subs, rfl, ?_⟩
  refine ⟨subs.map (resolveSingle o), resolveSubdomains_eq_map o subs k, by simp, ?_⟩
  intro i hi
  rw [List.getElem?_map, List.getElem?_eq_getElem hi]
  rfl

theorem setDedup_mem (a : String) : ∀ l : List String, a ∈ setDedup l ↔ a ∈ l := by
  intro l
  induction l with
  | nil => simp [setDedup]
  | cons x xs ih =>
    by_cases hax : a = x
    · simp [setDedup, hax]
    · simp [setDedup, List.mem_filter, hax, ih]

theorem setDedup_nodup : ∀ l : List String, (setDedup l).Nodup := by
  intro l
  induction l with
  | nil => simp [setDedup]
  | cons x xs ih =>
    rw [setDedup, List.nodup_cons]
    refine ⟨?_, ih.filter _⟩
    intro hx
    simp [List.mem_filter] at hx

theorem mergedCandidates_mem (ct : CtResponse) (domain a : String) :
    a ∈ mergedCandidates ct domain ↔
      a ∈ fetchSubdomainsFromCrtSh ct domain ∨ a ∈ generateWordlistSubdomains domain := by
  simp [mergedCandidates, jsSortStrings, List.mem_insertionSort, setDedup_mem]

theorem POST_valid_shape (domain : String) (ct : CtResponse) (dns : DnsOracle) (now : String)
    (h : validDomain domain = true) :
    ∃ sorted, POST domain ct dns now =
      Except.ok
        { scan_date := now, domain := domain,
          stats :=
            { total := sorted.length,
              cloudflare := (sorted.filter fun r => r.cloudflare).length,
              no_ip := (sorted.filter fun r => !jsTruthy r.ip).length },
          subdomains := sorted } ∧
      sorted = jsSortResults ((mergedCandidates ct domain).map fun s =>
        { subdomain := s, ip := (dns s).1, cloudflare := isCloudflare (dns s).1 }) := by
  have hne : domain ≠ "" := by
    intro h0
    rw [h0] at h
    exact absurd h (by decide)
  have hres : resolveSubdomains dns (mergedCandidates ct domain) 50 =
      some ((mergedCandidates ct domain).map (resolveSingle dns)) :=
    resolveSubdomains_eq_map dns (mergedCandidates ct domain) 49
  refine ⟨_, ?_, rfl⟩
  unfold POST
  rw [if_neg hne, if_neg (by rw [h]; decide)]
  simp only [hres, Option.getD_some, List.map_map]
  rfl

theorem POST_ok_fields (domain : String) (ct : CtResponse) (dns : DnsOracle) (now : String)
    (resp : ScanResponse) (h : POST domain ct dns now = Except.ok resp) :
    resp.subdomains = jsSortResults ((mergedCandidates ct domain).map fun s =>
      { subdomain := s, ip := (dns s).1, cloudflare := isCloudflare (dns s).1 }) ∧
    resp.stats.total = resp.subdomains.length ∧
    resp.stats.cloudflare = (resp.subdomains.filter fun r => r.cloudflare).length ∧
    resp.stats.no_ip = (resp.subdomains.filter fun r => !jsTruthy r.ip).length := by
  have hv : validDomain domain = true := by
    cases hvd : validDomain domain
    · exfalso
      unfold POST at h
      by_cases h0 : domain = ""
      · rw [if_pos h0] at h
        exact absurd h (by simp)
      · rw [if_neg h0, if_pos (by rw [hvd]; rfl)] at h
        exact absurd h (by simp)
    · rfl
  obtain ⟨sorted, heq, hs⟩ := POST_valid_shape domain ct dns now hv
  rw [heq] at h
  injection h with h
  subst h
  exact ⟨hs, rfl, rfl, rfl⟩

theorem POST_mem_subdomains (domain : String) (ct : CtResponse) (dns : DnsOracle) (now : String)
    (resp : ScanResponse) (e : ScanResult) (h : POST domain ct dns now = Except.ok resp)
    (he : e ∈ resp.subdomains) :
    ∃ s, s ∈ mergedCandidates ct domain ∧
      e = { subdomain := s, ip := (dns s).1, cloudflare := isCloudflare (dns s).1 } := by
  obtain ⟨hsub, _⟩ := POST_ok_fields domain ct dns now resp h
  rw [hsub] at he
  simp only [jsSortResults, List.mem_insertionSort, List.mem_map] at he
  obtain ⟨s, hs, rfl⟩ := he
  exact ⟨s, hs, rfl⟩

/-! ## C6: graceful degradation of the CT source -/

/-- C6: `fetchSubdomainsFromCrtSh` never raises: every transport failure,
timeout or malformed body (the thrown cases) and every non-OK HTTP status
yields the empty candidate list, and a scan run whose CT exchange fails
still returns a non-error report whose results contain one entry for every
wordlist-derived candidate. -/
theorem fetchSubdomainsFromCrtSh_graceful :
    (∀ domain : String, fetchSubdomainsFromCrtSh .failure domain = []) ∧
    (∀ (st : Nat) (domain : String), fetchSubdomainsFromCrtSh (.httpError st) domain = []) ∧
    (∀ (domain : String) (dns : DnsOracle) (now : String), validDomain domain = true →
      ∃ resp, POST domain .failure dns now = Except.ok resp ∧
        ∀ w ∈ generateWordlistSubdomains domain, ∃ e ∈ resp.subdomains, e.subdomain = w) := by
  refine ⟨fun _ => rfl, fun _ _ => rfl, ?_⟩
  intro domain dns now hv
  obtain ⟨sorted, heq, hsorted⟩ := POST_valid_shape domain .failure dns now hv
  refine ⟨_, heq, ?_⟩
  intro w hw
  refine ⟨{ subdomain := w, ip := (dns w).1, cloudflare := isCloudflare (dns w).1 }, ?_, rfl⟩
  show _ ∈ sorted
  rw [hsorted]
  simp only [jsSortResults, List.mem_insertionSort, List.mem_map]
  refine ⟨w, ?_, rfl⟩
  rw [mergedCandidates_mem]
  exact Or.inr hw

/-! ## C3: merge deduplication -/

/-- C3 counterexample: for the valid domain `Example.com` and a CT
response covering `www.example.com`, the merged candidate array contains
both `www.example.com` (CT-derived, lower-cased) and `www.Example.com`
(wordlist-derived), two distinct entries that are equal under
case-insensitive comparison — so the merge is not deduplicated
case-insensitively. -/
theorem mergedCandidates_ci_duplicate :
    validDomain "Example.com" = true ∧
    "www.example.com" ∈
      mergedCandidates (.success [⟨"www.example.com", "www.example.com"⟩]) "Example.com" ∧
    "www.Example.com" ∈
      mergedCandidates (.success [⟨"www.example.com", "www.example.com"⟩]) "Example.com" ∧
    lowerChars "www.example.com".data = lowerChars "www.Example.com".data ∧
    "www.example.com" ≠ "www.Example.com" := by
  decide

/-- C3 amended: the merged candidate array is deduplicated under exact
(case-sensitive) string equality — the `Set` union compares strings
exactly, so no two entries of the merged array are equal as strings, but
case-insensitive duplicates remain possible (see the counterexample). -/
theorem mergedCandidates_nodup :
    ∀ (ct : CtResponse) (domain : String), (mergedCandidates ct domain).Nodup := by
  intro ct domain
  exact ((List.perm_insertionSort _ _).nodup_iff).mpr (setDedup_nodup _)

/-! ## C10: classification consults only the IPv4 address -/

/-- C10: the `cloudflare` flag of every report entry derives solely from
the candidate's resolved IPv4 address: the handler's output is invariant
under any change of the oracle's IPv6 answers, every entry's flag equals
`isCloudflare` of its IPv4 address, and an entry with no IPv4 address is
always reported `cloudflare = false` — even though e.g. `2606:4700::1`
lies inside a published Cloudflare IPv6 range. -/
theorem cloudflare_flag_from_ipv4_only :
    (∀ (domain : String) (ct : CtResponse) (dns dns' : DnsOracle) (now : String),
      (∀ s, (dns s).1 = (dns' s).1) → POST domain ct dns now = POST domain ct dns' now) ∧
    (∀ (domain : String) (ct : CtResponse) (dns : DnsOracle) (now : String) resp,
      POST domain ct dns now = Except.ok resp →
        ∀ e ∈ resp.subdomains, e.cloudflare = isCloudflare e.ip) ∧
    (∀ (domain : String) (ct : CtResponse) (dns : DnsOracle) (now : String) resp,
      POST domain ct dns now = Except.ok resp →
        ∀ e ∈ resp.subdomains, e.ip = none → e.cloudflare = false) ∧
    v6SpecMember "2606:4700::1" = true := by
  refine ⟨?_, ?_, ?_, by decide⟩
  · intro domain ct dns dns' now hdns
    by_cases hv : validDomain domain = true
    · obtain ⟨s1, e1, h1⟩ := POST_valid_shape domain ct dns now hv
      obtain ⟨s2, e2, h2⟩ := POST_valid_shape domain ct dns' now hv
      have hfun : (fun s : String => ScanResult.mk s (dns s).1 (isCloudflare (dns s).1)) =
          (fun s : String => ScanResult.mk s (dns' s).1 (isCloudflare (dns' s).1)) := by
        funext s
        rw [hdns s]
      rw [e1, e2, h1, h2]
      rw [show (fun s => ({ subdomain := s, ip := (dns s).1, cloudflare := isCloudflare (dns s).1 } : ScanResult)) = fun s : String => ScanResult.mk s (dns' s).1 (isCloudflare (dns' s).1) from hfun]
    · replace hv : validDomain domain = false := by
        cases h : validDomain domain
        · rfl
        · exact absurd h hv
      unfold POST
      by_cases h0 : domain = ""
      · rw [if_pos h0, if_pos h0]
      · rw [if_neg h0, if_neg h0, if_pos (by rw [hv]; rfl), if_pos (by rw [hv]; rfl)]
  · intro domain ct dns now resp h e he
    obtain ⟨s, _, rfl⟩ := POST_mem_subdomains domain ct dns now resp e h he
    rfl
  · intro domain ct dns now resp h e he hip
    obtain ⟨s, _, rfl⟩ := POST_mem_subdomains domain ct dns now resp e h he
    show isCloudflare (dns s).1 = false
    have : (dns s).1 = none := hip
    rw [this]
    rfl

/-! ## C4: domain validation -/

theorem splitOnC_ne_nil (sep : Char) (l : List Char) : splitOnC sep l ≠ [] := by
  cases l with
  | nil => simp [splitOnC]
  | cons c cs =>
    rw [splitOnC]
    by_cases h : c = sep
    · simp [h]
    · simp only [if_neg h]
      cases splitOnC sep cs <;> simp

theorem labelMatches_iff_grammarLabel (l : List Char) :
    labelMatches isAlnumChar l = true ↔ grammarLabel l := by
  cases l with
  | nil => simp [labelMatches, grammarLabel]
  | cons c cs =>
    have hne : c :: cs ≠ [] := by simp
    have hx : (c :: cs).getLast? = some ((c :: cs).getLast hne) := List.getLast?_eq_getLast _ hne
    have hxmem : (c :: cs).getLast hne ∈ c :: cs := List.getLast_mem hne
    have hdash : isAlnumChar '-' = false := by decide
    rw [grammarLabel]
    simp only [labelMatches, hx, Bool.and_eq_true, List.all_eq_true, Bool.or_eq_true,
      decide_eq_true_eq]
    constructor
    · rintro ⟨⟨hc, hall⟩, hlast⟩
      refine ⟨hne, ?_, ?_, ?_⟩
      · intro d hd
        rcases List.mem_cons.mp hd with rfl | hd
        · exact Or.inl hc
        · exact hall d hd
      · simp only [List.head?, ne_eq, Option.some.injEq]
        intro hcontra
        rw [hcontra] at hc
        rw [hdash] at hc
        exact absurd hc (by decide)
      · simp only [ne_eq, Option.some.injEq]
        intro hcontra
        rw [hcontra] at hlast
        rw [hdash] at hlast
        exact absurd hlast (by decide)
    · rintro ⟨_, hchars, hhead, hlast⟩
      simp only [List.head?, ne_eq, Option.some.injEq] at hhead hlast
      have hc : isAlnumChar c = true := by
        rcases hchars c (by simp) with h | h
        · exact h
        · exact absurd h hhead
      refine ⟨⟨hc, ?_⟩, ?_⟩
      · intro d hd
        exact hchars d (List.mem_cons_of_mem c hd)
      · rcases hchars _ hxmem with h | h
        · exact h
        · exact absurd h hlast

/-- C4 counterexample: `localhost` matches the claimed grammar (one label,
no hyphens, length at least 2) yet the scan rejects it with the 400
`Invalid domain format` response — the route's pattern additionally
requires at least two labels and a letters-only final label. -/
theorem domain_validation_cex :
    claimDomainGrammar "localhost" = true ∧
    POST "localhost" .failure oNone "" = Except.error (400, "Invalid domain format") := by
  exact ⟨by decide, rfl⟩

/-- C4 amended: the scan accepts a domain string iff it consists of two or
more dot-separated labels, every non-final label over `[a-zA-Z0-9-]`
neither starting nor ending with a hyphen, and a final label of two or
more letters only; every other domain string is rejected with a 400-class
validation error before any network I/O (the response is independent of
both collaborators). -/
theorem domain_validation_amended :
    (∀ s : String,
      validDomain s = true ↔
        (2 ≤ (splitOnC '.' s.data).length ∧
         (∀ l ∈ (splitOnC '.' s.data).dropLast, grammarLabel l) ∧
         (∀ t, (splitOnC '.' s.data).getLast? = some t →
            2 ≤ t.length ∧ ∀ c ∈ t, c.isAlpha = true))) ∧
    (∀ (domain : String) (ct : CtResponse) (dns : DnsOracle) (now : String),
      validDomain domain = true → ∃ resp, POST domain ct dns now = Except.ok resp) ∧
    (∀ (domain : String) (ct ct' : CtResponse) (dns dns' : DnsOracle) (now now' : String),
      validDomain domain = false →
        POST domain ct dns now = POST domain ct' dns' now' ∧
        ∃ msg, POST domain ct dns now = Except.error (400, msg)) := by
  refine ⟨?_, ?_, ?_⟩
  · intro s
    have hnil := splitOnC_ne_nil '.' s.data
    have hx : (splitOnC '.' s.data).getLast? =
        some ((splitOnC '.' s.data).getLast hnil) := List.getLast?_eq_getLast _ hnil
    rw [validDomain]
    simp only [hx, Bool.and_eq_true, List.all_eq_true, decide_eq_true_eq,
      labelMatches_iff_grammarLabel, Option.some.injEq]
    constructor
    · rintro ⟨⟨hlen, hlabels⟩, htld⟩
      refine ⟨hlen, hlabels, ?_⟩
      intro t ht
      cases ht
      exact htld
    · rintro ⟨hlen, hlabels, htld⟩
      exact ⟨⟨hlen, hlabels⟩, htld _ rfl⟩
  · intro domain ct dns now hv
    obtain ⟨sorted, heq, _⟩ := POST_valid_shape domain ct dns now hv
    exact ⟨_, heq⟩
  · intro domain ct ct' dns dns' now now' hv
    unfold POST
    by_cases h0 : domain = ""
    · rw [if_pos h0, if_pos h0]
      exact ⟨rfl, "Domain is required", rfl⟩
    · rw [if_neg h0, if_neg h0, if_pos (by rw [hv]; rfl), if_pos (by rw [hv]; rfl)]
      exact ⟨rfl, "Invalid domain format", rfl⟩

/-! ## C2: IPv6 classification -/

/-- C2 counterexample: `2a06:98c1::1` lies inside the published block
`2a06:98c0::/29` under true 128-bit prefix-bit comparison, yet
`isCloudflare` classifies it `false` — the code compares only the textual
first-two-group prefix of each block's base address. -/
theorem isCloudflare_ipv6_not_bitwise :
    "2a06:98c0::/29" ∈ CLOUDFLARE_IPV6_RANGES ∧
    v6SpecMember "2a06:98c1::1" = true ∧
    isCloudflare (some "2a06:98c1::1") = false := by
  refine ⟨by decide, by decide, by decide⟩

/-- C2 amended: for every IPv6 input (any address string containing a
colon), `isCloudflare` decides membership by the textual shortcut: it
returns true iff the address string literally starts with the first two
colon-groups of some published block's base address — not by prefix-bit
comparison of the 128-bit address. -/
theorem isCloudflare_ipv6_textual (s : String) (hcol : s.data.contains ':' = true) :
    isCloudflare (some s) = true ↔
      ∃ p ∈ (["2400:cb00", "2606:4700", "2803:f800", "2405:b500",
              "2a06:98c0", "2c0f:f248", "2405:8100"] : List String),
        p.data.isPrefixOf s.data = true := by
  have hne : s ≠ "" := by
    intro h
    rw [h] at hcol
    exact absurd hcol (by decide)
  rw [isCloudflare]
  rw [if_neg hne, if_pos hcol]
  constructor
  · intro h
    rcases List.any_eq_true.mp h with ⟨r, hr, hpred⟩
    fin_cases hr
    · exact ⟨"2400:cb00", by simp, hpred⟩
    · exact ⟨"2606:4700", by simp, hpred⟩
    · exact ⟨"2803:f800", by simp, hpred⟩
    · exact ⟨"2405:b500", by simp, hpred⟩
    · exact ⟨"2405:8100", by simp, hpred⟩
    · exact ⟨"2a06:98c0", by simp, hpred⟩
    · exact ⟨"2c0f:f248", by simp, hpred⟩
  · rintro ⟨p, hp, hpre⟩
    apply List.any_eq_true.mpr
    fin_cases hp
    · exact ⟨"2400:cb00::/32", by simp [CLOUDFLARE_IPV6_RANGES], hpre⟩
    · exact ⟨"2606:4700::/32", by simp [CLOUDFLARE_IPV6_RANGES], hpre⟩
    · exact ⟨"2803:f800::/32", by simp [CLOUDFLARE_IPV6_RANGES], hpre⟩
    · exact ⟨"2405:b500::/32", by simp [CLOUDFLARE_IPV6_RANGES], hpre⟩
    · exact ⟨"2a06:98c0::/29", by simp [CLOUDFLARE_IPV6_RANGES], hpre⟩
    · exact ⟨"2c0f:f248::/32", by simp [CLOUDFLARE_IPV6_RANGES], hpre⟩
    · exact ⟨"2405:8100::/32", by simp [CLOUDFLARE_IPV6_RANGES], hpre⟩

/-- Witness for the amended C2 theorem at the concrete member address
`2400:cb00::1`. -/
theorem isCloudflare_ipv6_textual_witness :
    isCloudflare (some "2400:cb00::1") = true ↔
      ∃ p ∈ (["2400:cb00", "2606:4700", "2803:f800", "2405:b500",
              "2a06:98c0", "2c0f:f248", "2405:8100"] : List String),
        p.data.isPrefixOf ("2400:cb00::1" : String).data = true :=
  isCloudflare_ipv6_textual "2400:cb00::1" (by decide)

/-! ## C5: IPv4 classification arithmetic -/

theorem toUint32_lt (x : Int) : toUint32 x < 4294967296 := by
  unfold toUint32
  omega

theorem toUint32_natCast (n : Nat) (h : n < 4294967296) : toUint32 (n : Int) = n := by
  unfold toUint32
  omega

theorem toInt32_cases (x : Int) :
    toInt32 x = x % 4294967296 ∨ toInt32 x = x % 4294967296 - 4294967296 := by
  unfold toInt32 toUint32
  split_ifs <;> omega

theorem toInt32_natCast_inj (m n : Nat) (hm : m < 4294967296) (hn : n < 4294967296) :
    toInt32 (m : Int) = toInt32 (n : Int) ↔ m = n := by
  unfold toInt32 toUint32
  split_ifs <;> omega

theorem land_lt (a b : Nat) (h : a < 4294967296) : Nat.land a b < 4294967296 :=
  lt_of_le_of_lt (show a &&& b ≤ a from Nat.and_le_left) h

theorem jsAnd_eq_jsAnd_iff (x y m : Int) :
    (jsAnd x m == jsAnd y m) = true ↔
      Nat.land (toUint32 x) (toUint32 m) = Nat.land (toUint32 y) (toUint32 m) := by
  unfold jsAnd
  rw [beq_iff_eq]
  exact toInt32_natCast_inj _ _ (land_lt _ _ (toUint32_lt x)) (land_lt _ _ (toUint32_lt y))

theorem ipNum_toUint32 (a b c d : Nat) (ha : a < 256) (hb : b < 256) (hc : c < 256)
    (hd : d < 256) :
    toUint32 (jsShl (a : Int) 24 + jsShl (b : Int) 16 + jsShl (c : Int) 8 + (d : Int)) =
      ipv4Nat a b c d := by
  unfold jsShl
  rw [toUint32_natCast a (by omega), toUint32_natCast b (by omega), toUint32_natCast c (by omega)]
  have h24 : (2 : Int) ^ (toUint32 (24 : Int) % 32) = 16777216 := by decide
  have h16 : (2 : Int) ^ (toUint32 (16 : Int) % 32) = 65536 := by decide
  have h8 : (2 : Int) ^ (toUint32 (8 : Int) % 32) = 256 := by decide
  rw [h24, h16, h8]
  rcases toInt32_cases ((a : Int) * 16777216) with h1 | h1 <;>
    rcases toInt32_cases ((b : Int) * 65536) with h2 | h2 <;>
      rcases toInt32_cases ((c : Int) * 256) with h3 | h3 <;>
        (rw [h1, h2, h3]; unfold toUint32 ipv4Nat; omega)

theorem mask_toUint32 (p : Nat) (hp1 : 1 ≤ p) (hp31 : p ≤ 31) :
    toUint32 (jsNot (jsShl 1 ((32 : Int) - (p : Int)) - 1)) = v4mask p := by
  interval_cases p <;> decide

theorem ipToNumber_toUint32 (s : String) (a b c d : Nat) (hp : ipParts s = some (a, b, c, d))
    (ha : a < 256) (hb : b < 256) (hc : c < 256) (hd : d < 256) :
    ∃ v, ipToNumber s = some v ∧ toUint32 v = ipv4Nat a b c d := by
  refine ⟨_, by rw [ipToNumber, hp]; rfl, ?_⟩
  exact ipNum_toUint32 a b c d ha hb hc hd

theorem isIpInCidr_iff (s cidr rangeStr : String) (pChars : List Char) (p : Nat)
    (a b c d na nb nc nd : Nat)
    (hsplit : splitOnC '/' cidr.data = [rangeStr.data, pChars])
    (hpNum : digitsToNat? pChars = some p)
    (hp1 : 1 ≤ p) (hp31 : p ≤ 31)
    (hip : ipParts s = some (a, b, c, d))
    (hr : ipParts rangeStr = some (na, nb, nc, nd))
    (ha : a < 256) (hb : b < 256) (hc : c < 256) (hd : d < 256)
    (hna : na < 256) (hnb : nb < 256) (hnc : nc < 256) (hnd : nd < 256) :
    isIpInCidr s cidr =
      (Nat.land (ipv4Nat a b c d) (v4mask p) == Nat.land (ipv4Nat na nb nc nd) (v4mask p)) := by
  obtain ⟨v, hv, hvu⟩ := ipToNumber_toUint32 s a b c d hip ha hb hc hd
  obtain ⟨w, hw, hwu⟩ := ipToNumber_toUint32 rangeStr na nb nc nd hr hna hnb hnc hnd
  have hw' : ipToNumber (String.mk rangeStr.data) = some w := hw
  have heq : isIpInCidr s cidr =
      (match digitsToNat? pChars, ipToNumber s, ipToNumber (String.mk rangeStr.data) with
        | some plen, some ipNum, some rangeNum =>
          jsAnd ipNum (jsNot (jsShl 1 ((32 : Int) - (plen : Int)) - 1)) ==
            jsAnd rangeNum (jsNot (jsShl 1 ((32 : Int) - (plen : Int)) - 1))
        | _, _, _ => false) := by
    rw [isIpInCidr, hsplit]
  rw [heq, hpNum, hv, hw']
  show (jsAnd v (jsNot (jsShl 1 ((32 : Int) - (p : Int)) - 1)) ==
      jsAnd w (jsNot (jsShl 1 ((32 : Int) - (p : Int)) - 1))) = _
  apply Bool.coe_iff_coe.mp
  rw [jsAnd_eq_jsAnd_iff, hvu, hwu, mask_toUint32 p hp1 hp31, beq_iff_eq]

/-- C5: `isCloudflare` returns false on `null`; for a dotted-quad IPv4
address it returns true iff the 32-bit address value matches one of the 15
published blocks under `(address & mask) == (network & mask)` with the
mask derived from the prefix length — exact integer arithmetic; the known
edge IP `104.16.1.1` is a member and `8.8.8.8` is not; and every report
entry with `cloudflare = true` has a non-null `ip` that `isCloudflare`
accepts. -/
theorem isCloudflare_ipv4_exact :
    isCloudflare none = false ∧
    (∀ (s : String) (a b c d : Nat),
      ipParts s = some (a, b, c, d) →
      a < 256 → b < 256 → c < 256 → d < 256 →
      s.data.contains ':' = false →
      (isCloudflare (some s) = true ↔ cloudflareV4Mem (ipv4Nat a b c d) = true)) ∧
    isCloudflare (some "104.16.1.1") = true ∧
    isCloudflare (some "8.8.8.8") = false ∧
    (∀ (domain : String) (ct : CtResponse) (dns : DnsOracle) (now : String)
        (resp : ScanResponse),
      POST domain ct dns now = Except.ok resp →
        ∀ e ∈ resp.subdomains, e.cloudflare = true → e.ip ≠ none ∧ isCloudflare e.ip = true) := by
  refine ⟨rfl, ?_, by decide, by decide, ?_⟩
  · intro s a b c d hp ha hb hc hd hcol
    have hne : s ≠ "" := by
      intro h
      rw [h] at hp
      rw [show ipParts "" = none from by decide] at hp
      exact Option.noConfusion hp
    rw [isCloudflare]
    rw [if_neg hne, if_neg (by rw [hcol]; exact Bool.false_ne_true)]
    have e01 := isIpInCidr_iff s "103.21.244.0/22" "103.21.244.0" ("22").data 22 a b c d
      103 21 244 0 (by decide) (by decide) (by norm_num) (by norm_num) hp (by decide)
      ha hb hc hd (by norm_num) (by norm_num) (by norm_num) (by norm_num)
    have e02 := isIpInCidr_iff s "103.22.200.0/22" "103.22.200.0" ("22").data 22 a b c d
      103 22 200 0 (by decide) (by decide) (by norm_num) (by norm_num) hp (by decide)
      ha hb hc hd (by norm_num) (by norm_num) (by norm_num) (by norm_num)
    have e03 := isIpInCidr_iff s "103.31.4.0/22" "103.31.4.0" ("22").data 22 a b c d
      103 31 4 0 (by decide) (by decide) (by norm_num) (by norm_num) hp (by decide)
      ha hb hc hd (by norm_num) (by norm_num) (by norm_num) (by norm_num)
    have e04 := isIpInCidr_iff s "104.16.0.0/13" "104.16.0.0" ("13").data 13 a b c d
      104 16 0 0 (by decide) (by decide) (by norm_num) (by norm_num) hp (by decide)
      ha hb hc hd (by norm_num) (by norm_num) (by norm_num) (by norm_num)
    have e05 := isIpInCidr_iff s "104.24.0.0/14" "104.24.0.0" ("14").data 14 a b c d
      104 24 0 0 (by decide) (by decide) (by norm_num) (by norm_num) hp (by decide)
      ha hb hc hd (by norm_num) (by norm_num) (by norm_num) (by norm_num)
    have e06 := isIpInCidr_iff s "108.162.192.0/18" "108.162.192.0" ("18").data 18 a b c d
      108 162 192 0 (by decide) (by decide) (by norm_num) (by norm_num) hp (by decide)
      ha hb hc hd (by norm_num) (by norm_num) (by norm_num) (by norm_num)
    have e07 := isIpInCidr_iff s "131.0.72.0/22" "131.0.72.0" ("22").data 22 a b c d
      131 0 72 0 (by decide) (by decide) (by norm_num) (by norm_num) hp (by decide)
      ha hb hc hd (by norm_num) (by norm_num) (by norm_num) (by norm_num)
    have e08 := isIpInCidr_iff s "141.101.64.0/18" "141.101.64.0" ("18").data 18 a b c d
      141 101 64 0 (by decide) (by decide) (by norm_num) (by norm_num) hp (by decide)
      ha hb hc hd (by norm_num) (by norm_num) (by norm_num) (by norm_num)
    have e09 := isIpInCidr_iff s "162.158.0.0/15" "162.158.0.0" ("15").data 15 a b c d
      162 158 0 0 (by decide) (by decide) (by norm_num) (by norm_num) hp (by decide)
      ha hb hc hd (by norm_num) (by norm_num) (by norm_num) (by norm_num)
    have e10 := isIpInCidr_iff s "172.64.0.0/13" "172.64.0.0" ("13").data 13 a b c d
      172 64 0 0 (by decide) (by decide) (by norm_num) (by norm_num) hp (by decide)
      ha hb hc hd (by norm_num) (by norm_num) (by norm_num) (by norm_num)
    have e11 := isIpInCidr_iff s "173.245.48.0/20" "173.245.48.0" ("20").data 20 a b c d
      173 245 48 0 (by decide) (by decide) (by norm_num) (by norm_num) hp (by decide)
      ha hb hc hd (by norm_num) (by norm_num) (by norm_num) (by norm_num)
    have e12 := isIpInCidr_iff s "188.114.96.0/20" "188.114.96.0" ("20").data 20 a b c d
      188 114 96 0 (by decide) (by decide) (by norm_num) (by norm_num) hp (by decide)
      ha hb hc hd (by norm_num) (by norm_num) (by norm_num) (by norm_num)
    have e13 := isIpInCidr_iff s "190.93.240.0/20" "190.93.240.0" ("20").data 20 a b c d
      190 93 240 0 (by decide) (by decide) (by norm_num) (by norm_num) hp (by decide)
      ha hb hc hd (by norm_num) (by norm_num) (by norm_num) (by norm_num)
    have e14 := isIpInCidr_iff s "197.234.240.0/22" "197.234.240.0" ("22").data 22 a b c d
      197 234 240 0 (by decide) (by decide) (by norm_num) (by norm_num) hp (by decide)
      ha hb hc hd (by norm_num) (by norm_num) (by norm_num) (by norm_num)
    have e15 := isIpInCidr_iff s "198.41.128.0/17" "198.41.128.0" ("17").data 17 a b c d
      198 41 128 0 (by decide) (by decide) (by norm_num) (by norm_num) hp (by decide)
      ha hb hc hd (by norm_num) (by norm_num) (by norm_num) (by norm_num)
    simp only [CLOUDFLARE_IPV4_RANGES, List.any_cons, List.any_nil,
      cloudflareV4Mem, cloudflareV4Blocks]
    rw [e01, e02, e03, e04, e05, e06, e07, e08, e09, e10, e11, e12, e13, e14, e15]
  · intro domain ct dns now resp h e he hcf
    obtain ⟨s, _, rfl⟩ := POST_mem_subdomains domain ct dns now resp e h he
    have hip : isCloudflare (dns s).1 = true := hcf
    refine ⟨?_, hip⟩
    intro hnone
    show False
    have : (dns s).1 = none := hnone
    rw [this] at hip
    exact absurd hip (by decide)

/-! ## C7 and C8: report order and statistics -/

theorem charsLt_irrefl : ∀ x : List Char, charsLt x x = false := by
  intro x
  induction x with
  | nil => rfl
  | cons a as ih => simp [charsLt, ih]

theorem charsLt_asymm : ∀ x y : List Char, charsLt x y = true → ¬ charsLt y x = true := by
  intro x
  induction x with
  | nil =>
    intro y h
    cases y with
    | nil => exact Bool.noConfusion h
    | cons b bs => simp [charsLt]
  | cons a as ih =>
    intro y h
    cases y with
    | nil => exact Bool.noConfusion h
    | cons b bs =>
      simp only [charsLt, Bool.or_eq_true, Bool.and_eq_true, decide_eq_true_eq] at h ⊢
      push_neg
      rcases h with h | ⟨he, hlt⟩
      · exact ⟨le_of_lt h, fun hba => absurd (hba ▸ h) (lt_irrefl b)⟩
      · subst he
        exact ⟨le_refl a, fun _ => ih bs hlt⟩

theorem charsLt_trans :
    ∀ x y z : List Char, charsLt x y = true → charsLt y z = true → charsLt x z = true := by
  intro x
  induction x with
  | nil =>
    intro y z h1 h2
    cases y with
    | nil => exact Bool.noConfusion h1
    | cons b bs =>
      cases z with
      | nil => exact Bool.noConfusion h2
      | cons c cs => simp [charsLt]
  | cons a as ih =>
    intro y z h1 h2
    cases y with
    | nil => exact Bool.noConfusion h1
    | cons b bs =>
      cases z with
      | nil => exact Bool.noConfusion h2
      | cons c cs =>
        simp only [charsLt, Bool.or_eq_true, Bool.and_eq_true, decide_eq_true_eq] at h1 h2 ⊢
        rcases h1 with h1 | ⟨rfl, h1⟩
        · rcases h2 with h2 | ⟨rfl, h2⟩
          · exact Or.inl (lt_trans h1 h2)
          · exact Or.inl h1
        · rcases h2 with h2 | ⟨rfl, h2⟩
          · exact Or.inl h2
          · exact Or.inr ⟨rfl, ih bs cs h1 h2⟩

theorem charsLt_eq_of_not :
    ∀ x y : List Char, charsLt x y = false → charsLt y x = false → x = y := by
  intro x
  induction x with
  | nil =>
    intro y h1 _
    cases y with
    | nil => rfl
    | cons b bs => exact Bool.noConfusion h1
  | cons a as ih =>
    intro y h1 h2
    cases y with
    | nil => exact Bool.noConfusion h2
    | cons b bs =>
      simp only [charsLt, Bool.or_eq_false_iff, Bool.and_eq_false_iff,
        decide_eq_false_iff_not] at h1 h2
      have hab : a = b := le_antisymm (not_lt.mp h2.1) (not_lt.mp h1.1)
      subst hab
      rcases h1.2 with h | h
      · exact absurd rfl h
      · rcases h2.2 with h' | h'
        · exact absurd rfl h'
        · rw [ih bs h h']

theorem charsLt_tri (x y : List Char) :
    charsLt x y = true ∨ x = y ∨ charsLt y x = true := by
  cases hxy : charsLt x y
  · cases hyx : charsLt y x
    · exact Or.inr (Or.inl (charsLt_eq_of_not x y hxy hyx))
    · exact Or.inr (Or.inr rfl)
  · exact Or.inl rfl

theorem hostCollate_le_iff (x y : String) :
    hostCollate x y ≤ 0 ↔
      (charsLt (lowerChars x.data) (lowerChars y.data) = true ∨
       (lowerChars x.data = lowerChars y.data ∧
        charsLt (caseChars y.data) (caseChars x.data) = false)) := by
  unfold hostCollate
  split_ifs with h1 h2 h3 h4
  · exact iff_of_true (by norm_num) (Or.inl h1)
  · refine iff_of_false (by norm_num) ?_
    rintro (h | ⟨heq, _⟩)
    · exact h1 h
    · rw [heq] at h2
      rw [charsLt_irrefl] at h2
      exact Bool.noConfusion h2
  · refine iff_of_true (by norm_num) (Or.inr ⟨?_, ?_⟩)
    · exact charsLt_eq_of_not _ _ (Bool.not_eq_true _ |>.mp h1) (Bool.not_eq_true _ |>.mp h2)
    · exact Bool.not_eq_true _ |>.mp (charsLt_asymm _ _ h3)
  · refine iff_of_false (by norm_num) ?_
    rintro (h | ⟨_, hfalse⟩)
    · exact h1 h
    · rw [hfalse] at h4
      exact absurd h4 (by decide)
  · refine iff_of_true (by norm_num) (Or.inr ⟨?_, ?_⟩)
    · exact charsLt_eq_of_not _ _ (Bool.not_eq_true _ |>.mp h1) (Bool.not_eq_true _ |>.mp h2)
    · exact Bool.not_eq_true _ |>.mp h4

theorem hostCollate_le_trans (x y z : String) (h1 : hostCollate x y ≤ 0)
    (h2 : hostCollate y z ≤ 0) : hostCollate x z ≤ 0 := by
  rw [hostCollate_le_iff] at h1 h2 ⊢
  rcases h1 with h1 | ⟨e1, n1⟩
  · rcases h2 with h2 | ⟨e2, _⟩
    · exact Or.inl (charsLt_trans _ _ _ h1 h2)
    · exact Or.inl (e2 ▸ h1)
  · rcases h2 with h2 | ⟨e2, n2⟩
    · exact Or.inl (e1 ▸ h2)
    · refine Or.inr ⟨e1.trans e2, ?_⟩
      cases hzx : charsLt (caseChars z.data) (caseChars x.data)
      · rfl
      · exfalso
        rcases charsLt_tri (caseChars x.data) (caseChars y.data) with h | h | h
        · have hzy := charsLt_trans _ _ _ hzx h
          rw [hzy] at n2
          exact Bool.noConfusion n2
        · rw [h] at hzx
          rw [hzx] at n2
          exact Bool.noConfusion n2
        · rw [h] at n1
          exact Bool.noConfusion n1

theorem resultCmp_le_iff (a b : ScanResult) :
    resultCmp a b ≤ 0 ↔
      ((jsTruthy a.ip = true ∧ jsTruthy b.ip = false) ∨
       (jsTruthy a.ip = jsTruthy b.ip ∧ hostCollate a.subdomain b.subdomain ≤ 0)) := by
  unfold resultCmp
  cases ha : jsTruthy a.ip <;> cases hb : jsTruthy b.ip <;> simp [ha, hb]

theorem resultCmp_le_trans (a b c : ScanResult) (h1 : resultCmp a b ≤ 0)
    (h2 : resultCmp b c ≤ 0) : resultCmp a c ≤ 0 := by
  rw [resultCmp_le_iff] at h1 h2 ⊢
  rcases h1 with ⟨ha, hb⟩ | ⟨hab, hc1⟩
  · rcases h2 with ⟨hb', _⟩ | ⟨hbc, _⟩
    · rw [hb] at hb'
      exact Bool.noConfusion hb'
    · exact Or.inl ⟨ha, hbc ▸ hb⟩
  · rcases h2 with ⟨hb', hc⟩ | ⟨hbc, hc2⟩
    · exact Or.inl ⟨hab.trans hb', hc⟩
    · exact Or.inr ⟨hab.trans hbc, hostCollate_le_trans _ _ _ hc1 hc2⟩

theorem hostCollate_le_total (x y : String) : hostCollate x y ≤ 0 ∨ hostCollate y x ≤ 0 := by
  rw [hostCollate_le_iff, hostCollate_le_iff]
  rcases charsLt_tri (lowerChars x.data) (lowerChars y.data) with h | h | h
  · exact Or.inl (Or.inl h)
  · cases hc : charsLt (caseChars y.data) (caseChars x.data)
    · exact Or.inl (Or.inr ⟨h, rfl⟩)
    · exact Or.inr (Or.inr ⟨h.symm, Bool.not_eq_true _ |>.mp (charsLt_asymm _ _ hc)⟩)
  · exact Or.inr (Or.inl h)

theorem resultCmp_le_total (a b : ScanResult) : resultCmp a b ≤ 0 ∨ resultCmp b a ≤ 0 := by
  rw [resultCmp_le_iff, resultCmp_le_iff]
  cases ha : jsTruthy a.ip <;> cases hb : jsTruthy b.ip
  · rcases hostCollate_le_total a.subdomain b.subdomain with h | h
    · exact Or.inl (Or.inr ⟨rfl, h⟩)
    · exact Or.inr (Or.inr ⟨rfl, h⟩)
  · exact Or.inr (Or.inl ⟨rfl, rfl⟩)
  · exact Or.inl (Or.inl ⟨rfl, rfl⟩)
  · rcases hostCollate_le_total a.subdomain b.subdomain with h | h
    · exact Or.inl (Or.inr ⟨rfl, h⟩)
    · exact Or.inr (Or.inr ⟨rfl, h⟩)

theorem jsSortResults_sorted (l : List ScanResult) :
    List.Sorted (fun a b => resultCmp a b ≤ 0) (jsSortResults l) := by
  haveI : IsTotal ScanResult (fun a b => resultCmp a b ≤ 0) := ⟨resultCmp_le_total⟩
  haveI : IsTrans ScanResult (fun a b => resultCmp a b ≤ 0) := ⟨resultCmp_le_trans⟩
  exact List.sorted_insertionSort _ l

/-- Well-formed DNS behaviour: a successful `A` lookup never yields the
empty string (Node's resolver returns real dotted-quad strings), so the
handler's truthiness tests coincide with null tests. -/
theorem jsTruthy_of_wf (o : Option String) (hwf : o ≠ some "") :
    (jsTruthy o = true ↔ o ≠ none) ∧ (jsTruthy o = false ↔ o = none) := by
  cases o with
  | none => simp [jsTruthy]
  | some v =>
    have hv : v ≠ "" := fun h => hwf (by rw [h])
    simp [jsTruthy, hv]

/-- C7: in the report's results list, every entry with a non-null IPv4
address precedes every entry with a null one, and any two entries of the
same group appear in case-insensitive lexicographic hostname order
(`charsLt` on the lower-cased hostnames never decreases), provided the
DNS collaborators answer with real (non-empty) address strings. -/
theorem report_sorted_ip_first :
    ∀ (domain : String) (ct : CtResponse) (dns : DnsOracle) (now : String)
      (resp : ScanResponse),
      (∀ s, (dns s).1 ≠ some "") →
      POST domain ct dns now = Except.ok resp →
      List.Pairwise (fun a b : ScanResult =>
        (b.ip ≠ none → a.ip ≠ none) ∧
        ((a.ip = none ↔ b.ip = none) →
          charsLt (lowerChars b.subdomain.data) (lowerChars a.subdomain.data) = false))
        resp.subdomains := by
  intro domain ct dns now resp hwf h
  obtain ⟨hsub, _⟩ := POST_ok_fields domain ct dns now resp h
  have hwfmem : ∀ e ∈ resp.subdomains, e.ip ≠ some "" := by
    intro e he
    obtain ⟨s, _, rfl⟩ := POST_mem_subdomains domain ct dns now resp e h he
    exact hwf s
  have hsorted : List.Pairwise (fun a b => resultCmp a b ≤ 0) resp.subdomains := by
    rw [hsub]
    exact jsSortResults_sorted _
  refine hsorted.imp_of_mem ?_
  intro a b hma hmb hle
  have hwa := jsTruthy_of_wf a.ip (hwfmem a hma)
  have hwb := jsTruthy_of_wf b.ip (hwfmem b hmb)
  rw [resultCmp_le_iff] at hle
  rcases hle with ⟨hta, htb⟩ | ⟨heq, hcol⟩
  · have hbnone : b.ip = none := hwb.2.mp htb
    have hanot : a.ip ≠ none := hwa.1.mp hta
    refine ⟨fun _ => hanot, fun hiff => ?_⟩
    exact absurd (hiff.mpr hbnone) hanot
  · refine ⟨fun hb => ?_, fun _ => ?_⟩
    · intro hanone
      have : jsTruthy a.ip = false := hwa.2.mpr hanone
      rw [this] at heq
      exact hb (hwb.2.mp heq.symm)
    · rw [hostCollate_le_iff] at hcol
      rcases hcol with hlt | ⟨heql, _⟩
      · exact Bool.not_eq_true _ |>.mp (charsLt_asymm _ _ hlt)
      · rw [heql, charsLt_irrefl]

/-- Witness for C7 at the concrete run `respA`. -/
theorem report_sorted_ip_first_witness :
    List.Pairwise (fun a b : ScanResult =>
      (b.ip ≠ none → a.ip ≠ none) ∧
      ((a.ip = none ↔ b.ip = none) →
        charsLt (lowerChars b.subdomain.data) (lowerChars a.subdomain.data) = false))
      respA.subdomains :=
  report_sorted_ip_first "a.bc" .failure oNone "t" respA
    (fun _ h => Option.noConfusion h) rfl

/-- C8: the report's statistics satisfy: `total` is the number of result
entries, `cloudflare` the number of entries whose flag is true, and
`no_ip` the number of entries with a null IPv4 address (the code counts
falsy `ip` fields, which coincide with null ones for well-formed DNS
answers). -/
theorem scan_stats_single_pass :
    ∀ (domain : String) (ct : CtResponse) (dns : DnsOracle) (now : String)
      (resp : ScanResponse),
      (∀ s, (dns s).1 ≠ some "") →
      POST domain ct dns now = Except.ok resp →
      resp.stats.total = resp.subdomains.length ∧
      resp.stats.cloudflare = (resp.subdomains.filter fun r => r.cloudflare).length ∧
      resp.stats.no_ip = (resp.subdomains.filter fun r => r.ip = none).length := by
  intro domain ct dns now resp hwf h
  obtain ⟨hsub, htotal, hcf, hnoip⟩ := POST_ok_fields domain ct dns now resp h
  refine ⟨htotal, hcf, ?_⟩
  rw [hnoip]
  congr 1
  apply List.filter_congr
  intro e he
  obtain ⟨s, _, rfl⟩ := POST_mem_subdomains domain ct dns now resp e h (by rw [hsub] at he ⊢; exact he)
  have hwfe := jsTruthy_of_wf (dns s).1 (hwf s)
  show (!jsTruthy (dns s).1) = decide ((dns s).1 = none)
  cases hd : (dns s).1 with
  | none => simp [jsTruthy]
  | some v =>
    have : jsTruthy (some v) = true := by
      rw [← hd]
      exact hwfe.1.mpr (by rw [hd]; exact Option.noConfusion)
    simp [this]

/-- Witness for C8 at the concrete run `respA`. -/
theorem scan_stats_single_pass_witness :
    respA.stats.total = respA.subdomains.length ∧
    respA.stats.cloudflare = (respA.subdomains.filter fun r => r.cloudflare).length ∧
    respA.stats.no_ip = (respA.subdomains.filter fun r => r.ip = none).length :=
  scan_stats_single_pass "a.bc" .failure oNone "t" respA
    (fun _ h => Option.noConfusion h) rfl
